import Mathlib

/-
Verification of the FlightRisk C++ core (src/cpp_core/simulation.cpp).

The file shallowly embeds the two exported functions, `simulate_gamma` and
`calculate_risk`, over exact rational arithmetic.  The C++ random machinery
(`std::random_device` seeding a `std::mt19937`, fed to
`std::normal_distribution` / `std::gamma_distribution`) is modelled by an
explicit entropy stream `entropy : ℕ → ℚ` together with abstract sampler
functions `normalSample mean stddev u` and `gammaSample shape scale u` that
turn one raw engine output `u` into one variate; the engine is consumed
left-to-right, one raw value per distribution call, exactly in the order the
source draws (`simulate_gamma`: one draw per array slot; `calculate_risk`:
traffic then TSA in each loop iteration).  The final floating-point division
`missed_flights / iterations` is modelled by `divDouble`, which reproduces
the IEEE-754 special values a zero divisor produces.
-/

/-- Result of a C++ `double` computation in this program: a finite value
(modelled exactly as a rational) or one of the IEEE-754 special values the
final division in `calculate_risk` can produce. -/
inductive DVal where
  | fin (q : ℚ)
  | nan
  | posInf
  | negInf
  deriving DecidableEq, Repr

/-- IEEE-754 division of finite doubles, as performed by
`static_cast<double>(missed_flights) / iterations` (simulation.cpp:93):
a zero divisor yields NaN when the dividend is 0 and a signed infinity
otherwise; any nonzero divisor yields the exact quotient. -/
def divDouble (a b : ℚ) : DVal :=
  if b = 0 then
    if a = 0 then DVal.nan else if 0 < a then DVal.posInf else DVal.negInf
  else DVal.fin (a / b)

/-- `double effective_buffer = buffer_mins - walk_time;` (simulation.cpp:73). -/
def effectiveBuffer (buffer_mins walk_time : ℚ) : ℚ :=
  buffer_mins - walk_time

/-- The standard deviation actually handed to `std::normal_distribution`:
`std::max(0.1, traffic_std)` (simulation.cpp:81). -/
def effectiveTrafficStd (traffic_std : ℚ) : ℚ :=
  max (1 / 10) traffic_std

/-- `simulate_gamma(shape, scale, iterations)` (simulation.cpp:33-49): fills a
fresh array of length `iterations` with `d(gen)` draws, where
`d = std::gamma_distribution<>(shape, scale)`; the i-th slot consumes the i-th
raw engine value.  The function performs no validation of `shape` or `scale`.
The array is modelled as the list of produced doubles. -/
def simulate_gamma (gammaSample : ℚ → ℚ → ℚ → ℚ) (shape scale : ℚ)
    (iterations : ℤ) (entropy : ℕ → ℚ) : List ℚ :=
  (List.range iterations.toNat).map (fun i => gammaSample shape scale (entropy i))

/-- The total stochastic delay of trial `i` inside `calculate_risk`'s loop
(simulation.cpp:85-87): `t_traffic + t_tsa`, where the traffic draw consumes
engine value `2*i` through `traffic_dist` (whose standard deviation is the
clamped `effectiveTrafficStd traffic_std`), and the TSA draw consumes engine
value `2*i + 1` through `tsa_dist`. -/
def trialTotal (normalSample gammaSample : ℚ → ℚ → ℚ → ℚ)
    (traffic_avg traffic_std tsa_shape tsa_scale : ℚ)
    (entropy : ℕ → ℚ) (i : ℕ) : ℚ :=
  normalSample traffic_avg (effectiveTrafficStd traffic_std) (entropy (2 * i)) +
    gammaSample tsa_shape tsa_scale (entropy (2 * i + 1))

/-- The `missed_flights` accumulator after `n` iterations of the trial loop
(simulation.cpp:84-91): starts at 0 and is incremented once per trial whose
total strictly exceeds `effBuf`. -/
def missedFlights (normalSample gammaSample : ℚ → ℚ → ℚ → ℚ)
    (effBuf traffic_avg traffic_std tsa_shape tsa_scale : ℚ)
    (entropy : ℕ → ℚ) : ℕ → ℕ
  | 0 => 0
  | n + 1 =>
      missedFlights normalSample gammaSample effBuf traffic_avg traffic_std
          tsa_shape tsa_scale entropy n +
        (if effBuf <
            trialTotal normalSample gammaSample traffic_avg traffic_std
              tsa_shape tsa_scale entropy n
          then 1 else 0)

/-- `calculate_risk(buffer_mins, traffic_avg, traffic_std, tsa_shape,
tsa_scale, walk_time, iterations)` (simulation.cpp:63-94): computes
`effective_buffer`, runs the trial loop `max(iterations, 0)` times (a C++
`for (int i = 0; i < iterations; ...)` loop body never runs for
`iterations <= 0`), and returns `missed_flights / iterations` as a double.
No validation of any parameter is performed. -/
def calculate_risk (normalSample gammaSample : ℚ → ℚ → ℚ → ℚ)
    (buffer_mins traffic_avg traffic_std tsa_shape tsa_scale walk_time : ℚ)
    (iterations : ℤ) (entropy : ℕ → ℚ) : DVal :=
  divDouble
    ((missedFlights normalSample gammaSample
        (effectiveBuffer buffer_mins walk_time) traffic_avg traffic_std
        tsa_shape tsa_scale entropy iterations.toNat : ℕ) : ℚ)
    (iterations : ℚ)

/-- Specification-side count: the number of trials among `0, …, n-1` whose
total delay strictly exceeds `effBuf`. -/
def missedCountSpec (normalSample gammaSample : ℚ → ℚ → ℚ → ℚ)
    (effBuf traffic_avg traffic_std tsa_shape tsa_scale : ℚ)
    (entropy : ℕ → ℚ) (n : ℕ) : ℕ :=
  ((Finset.range n).filter (fun i =>
      effBuf < trialTotal normalSample gammaSample traffic_avg traffic_std
        tsa_shape tsa_scale entropy i)).card

theorem missedFlights_eq_missedCountSpec (ns gs : ℚ → ℚ → ℚ → ℚ)
    (eb ta ts sh sc : ℚ) (e : ℕ → ℚ) (n : ℕ) :
    missedFlights ns gs eb ta ts sh sc e n =
      missedCountSpec ns gs eb ta ts sh sc e n := by
  induction n with
  | zero => rfl
  | succ k ih =>
      simp only [missedFlights, missedCountSpec, Finset.range_succ,
        Finset.filter_insert] at *
      by_cases h : eb < trialTotal ns gs ta ts sh sc e k
      · rw [if_pos h, if_pos h,
          Finset.card_insert_of_not_mem (by simp), ih]
      · rw [if_neg h, if_neg h, ih, Nat.add_zero]

theorem missedFlights_le (ns gs : ℚ → ℚ → ℚ → ℚ)
    (eb ta ts sh sc : ℚ) (e : ℕ → ℚ) (n : ℕ) :
    missedFlights ns gs eb ta ts sh sc e n ≤ n := by
  induction n with
  | zero => exact Nat.le_refl 0
  | succ k ih =>
      simp only [missedFlights]
      split <;> omega

theorem missedFlights_anti_buffer (ns gs : ℚ → ℚ → ℚ → ℚ)
    (eb eb' ta ts sh sc : ℚ) (e : ℕ → ℚ) (h : eb' ≤ eb) (n : ℕ) :
    missedFlights ns gs eb ta ts sh sc e n ≤
      missedFlights ns gs eb' ta ts sh sc e n := by
  induction n with
  | zero => exact Nat.le_refl 0
  | succ k ih =>
      simp only [missedFlights]
      by_cases hk : eb < trialTotal ns gs ta ts sh sc e k
      · rw [if_pos hk, if_pos (lt_of_le_of_lt h hk)]
        omega
      · rw [if_neg hk]
        split <;> omega

theorem missedFlights_congr_entropy (ns gs : ℚ → ℚ → ℚ → ℚ)
    (eb ta ts sh sc : ℚ) (e1 e2 : ℕ → ℚ) (n : ℕ)
    (h : ∀ i < 2 * n, e1 i = e2 i) :
    missedFlights ns gs eb ta ts sh sc e1 n =
      missedFlights ns gs eb ta ts sh sc e2 n := by
  induction n with
  | zero => rfl
  | succ k ih =>
      simp only [missedFlights]
      rw [ih (fun i hi => h i (by omega))]
      unfold trialTotal
      rw [h (2 * k) (by omega), h (2 * k + 1) (by omega)]

theorem calculate_risk_eq_fin (ns gs : ℚ → ℚ → ℚ → ℚ)
    (b ta ts sh sc w : ℚ) (it : ℤ) (e : ℕ → ℚ) (h : 1 ≤ it) :
    calculate_risk ns gs b ta ts sh sc w it e =
      DVal.fin ((missedFlights ns gs (effectiveBuffer b w) ta ts sh sc e
          it.toNat : ℚ) / (it : ℚ)) := by
  have hne : (it : ℚ) ≠ 0 := by
    exact_mod_cast show it ≠ 0 by omega
  unfold calculate_risk divDouble
  rw [if_neg hne]

/-- Claim C1: for every trialCount ≥ 1, `calculate_risk` returns exactly
`missedTrialCount / trialCount`, where `missedTrialCount` counts the trials,
out of `trialCount` fresh independent draws, whose total
`trafficDelay + checkpointDelay` strictly exceeds
`effectiveBuffer = timeBudget - walkTime`; the count starts at 0 and is
incremented once per trial whose total exceeds the buffer (the loop
accumulator `missedFlights` coincides with the specification count
`missedCountSpec`). -/
theorem calculate_risk_eq_missed_ratio (ns gs : ℚ → ℚ → ℚ → ℚ)
    (b ta ts sh sc w : ℚ) (it : ℤ) (e : ℕ → ℚ) (h : 1 ≤ it) :
    calculate_risk ns gs b ta ts sh sc w it e =
      DVal.fin ((missedCountSpec ns gs (effectiveBuffer b w) ta ts sh sc e
          it.toNat : ℚ) / (it : ℚ)) := by
  rw [calculate_risk_eq_fin ns gs b ta ts sh sc w it e h,
    missedFlights_eq_missedCountSpec]

/-- Witness for C1: at the source's default scenario with one trial, the
trivial samplers and an all-zero entropy stream, the total delay 0 does not
exceed the buffer 80, so the returned ratio is 0/1 = 0. -/
theorem calculate_risk_eq_missed_ratio_witness :
    calculate_risk (fun _ _ u => u) (fun _ _ u => u) 90 45 10 2 9 10 1
        (fun _ => 0) = DVal.fin 0 := by
  rw [calculate_risk_eq_missed_ratio (fun _ _ u => u) (fun _ _ u => u)
      90 45 10 2 9 10 1 (fun _ => 0) (by norm_num)]
  norm_num [missedCountSpec, trialTotal, effectiveBuffer, Finset.range_one,
    Finset.filter_singleton]

/-- Claim C2: for every trialCount ≥ 1 the value returned by
`calculate_risk` is a finite double lying in the closed interval [0, 1],
for every possible sequence of random draws (any samplers, any entropy). -/
theorem calculate_risk_in_unit_interval (ns gs : ℚ → ℚ → ℚ → ℚ)
    (b ta ts sh sc w : ℚ) (it : ℤ) (e : ℕ → ℚ) (h : 1 ≤ it) :
    ∃ q : ℚ, calculate_risk ns gs b ta ts sh sc w it e = DVal.fin q ∧
      0 ≤ q ∧ q ≤ 1 := by
  have hpos : (0 : ℚ) < (it : ℚ) := by exact_mod_cast show (0 : ℤ) < it by omega
  refine ⟨_, calculate_risk_eq_fin ns gs b ta ts sh sc w it e h, ?_, ?_⟩
  · positivity
  · rw [div_le_one hpos]
    have hle := missedFlights_le ns gs (effectiveBuffer b w) ta ts sh sc e
      it.toNat
    have : ((it.toNat : ℤ) : ℚ) = (it : ℚ) := by
      rw [Int.toNat_of_nonneg (by omega)]
    calc (missedFlights ns gs (effectiveBuffer b w) ta ts sh sc e
          it.toNat : ℚ)
        ≤ ((it.toNat : ℤ) : ℚ) := by exact_mod_cast hle
      _ = (it : ℚ) := this

/-- Witness for C2: a concrete call with trialCount 1 has its result in
[0, 1]. -/
theorem calculate_risk_in_unit_interval_witness :
    ∃ q : ℚ, calculate_risk (fun _ _ u => u) (fun _ _ u => u) 90 45 10 2 9 10
        1 (fun _ => 0) = DVal.fin q ∧ 0 ≤ q ∧ q ≤ 1 :=
  calculate_risk_in_unit_interval (fun _ _ u => u) (fun _ _ u => u)
    90 45 10 2 9 10 1 (fun _ => 0) (by norm_num)

/-- Claim C3 (refuting theorem): called with `iterations = 0`,
`calculate_risk` raises nothing; the loop runs zero trials, no entropy is
consumed, and the function performs the unguarded division 0 / 0 and returns
NaN — there is no `InvalidParameterError` anywhere in the code.  Evaluated
here at the source's default parameters with the trivial samplers. -/
theorem calculate_risk_zero_iterations_no_error :
    calculate_risk (fun _ _ u => u) (fun _ _ u => u) 90 45 10 2 9 10 0
        (fun _ => 0) = DVal.nan := by
  decide

/-- Claim C4 (refuting theorem): with Gamma `shape = 0` (an invalid
parameter) neither function raises anything: `simulate_gamma 0 1` still
produces a full-length sample array, and `calculate_risk` with
`tsa_shape = 0` still runs its trial and returns a finite ratio — no
validation precedes sampling.  Evaluated with samplers that feed the raw
entropy value through. -/
theorem gamma_invalid_shape_no_error :
    simulate_gamma (fun _ _ u => u) 0 1 2 (fun i => (i : ℚ)) = [0, 1] ∧
      calculate_risk (fun _ _ u => u) (fun _ _ u => u) 90 45 10 0 9 10 1
        (fun _ => 0) = DVal.fin 0 := by
  constructor
  · rw [simulate_gamma, show ((2 : ℤ)).toNat = 2 from rfl]
    norm_num [List.range_succ, List.range_zero]
  · rw [calculate_risk_eq_fin (fun _ _ u => u) (fun _ _ u => u)
        90 45 10 0 9 10 1 (fun _ => 0) (by norm_num)]
    norm_num [missedFlights, trialTotal, effectiveBuffer]

theorem effectiveTrafficStd_idem (ts : ℚ) :
    effectiveTrafficStd (effectiveTrafficStd ts) = effectiveTrafficStd ts := by
  unfold effectiveTrafficStd
  rw [← max_assoc, max_self]

theorem missedFlights_congr_std (ns gs : ℚ → ℚ → ℚ → ℚ)
    (eb ta ts1 ts2 sh sc : ℚ) (e : ℕ → ℚ)
    (h : effectiveTrafficStd ts1 = effectiveTrafficStd ts2) (n : ℕ) :
    missedFlights ns gs eb ta ts1 sh sc e n =
      missedFlights ns gs eb ta ts2 sh sc e n := by
  induction n with
  | zero => rfl
  | succ k ih =>
      simp only [missedFlights, trialTotal]
      rw [ih]
      simp only [h]

/-- Claim C5: the effective standard deviation handed to the traffic
Normal distribution is exactly `max(0.1, standardDeviation)`: any supplied
value ≤ 0.1 (including 0 and negatives) is deterministically clamped to 0.1
at exactly this threshold, any value > 0.1 is used unchanged, no error is
raised (the function is total), and `calculate_risk` cannot distinguish a
supplied standard deviation from its clamped value. -/
theorem traffic_std_clamped (ns gs : ℚ → ℚ → ℚ → ℚ)
    (b ta ts sh sc w : ℚ) (it : ℤ) (e : ℕ → ℚ) :
    effectiveTrafficStd ts = max (1 / 10) ts ∧
      (ts ≤ 1 / 10 → effectiveTrafficStd ts = 1 / 10) ∧
      (1 / 10 < ts → effectiveTrafficStd ts = ts) ∧
      calculate_risk ns gs b ta ts sh sc w it e =
        calculate_risk ns gs b ta (effectiveTrafficStd ts) sh sc w it e := by
  refine ⟨rfl, fun h => max_eq_left h, fun h => max_eq_right h.le, ?_⟩
  unfold calculate_risk
  rw [missedFlights_congr_std ns gs _ ta ts (effectiveTrafficStd ts) sh sc e
      (effectiveTrafficStd_idem ts).symm]

/-- Witness for C5: a negative supplied standard deviation (-5) is clamped
to 1/10 and a value above the threshold (5) is used unchanged. -/
theorem traffic_std_clamped_witness :
    effectiveTrafficStd (-5) = 1 / 10 ∧ effectiveTrafficStd 5 = 5 :=
  ⟨(traffic_std_clamped (fun _ _ u => u) (fun _ _ u => u)
        90 45 (-5) 2 9 10 1 (fun _ => 0)).2.1 (by norm_num),
    (traffic_std_clamped (fun _ _ u => u) (fun _ _ u => u)
        90 45 5 2 9 10 1 (fun _ => 0)).2.2.1 (by norm_num)⟩

/-- Claim C6: when walkTime > timeBudget the function neither rejects nor
raises: the buffer `effectiveBuffer = timeBudget - walkTime` is computed
arithmetically (and is negative), all trials run, and each per-trial
comparison is made against that negative buffer — the result is exactly the
unvalidated count/division expression. -/
theorem negative_buffer_not_rejected (ns gs : ℚ → ℚ → ℚ → ℚ)
    (b ta ts sh sc w : ℚ) (it : ℤ) (e : ℕ → ℚ) (h : b < w) :
    effectiveBuffer b w < 0 ∧
      calculate_risk ns gs b ta ts sh sc w it e =
        divDouble ((missedCountSpec ns gs (effectiveBuffer b w) ta ts sh sc e
            it.toNat : ℚ)) (it : ℚ) := by
  constructor
  · unfold effectiveBuffer
    linarith
  · unfold calculate_risk
    rw [missedFlights_eq_missedCountSpec]

/-- Witness for C6: timeBudget 5 < walkTime 10 is processed, not
rejected. -/
theorem negative_buffer_not_rejected_witness :
    effectiveBuffer 5 10 < 0 ∧
      calculate_risk (fun _ _ u => u) (fun _ _ u => u) 5 45 10 2 9 10 1
          (fun _ => 0) =
        divDouble ((missedCountSpec (fun _ _ u => u) (fun _ _ u => u)
            (effectiveBuffer 5 10) 45 10 2 9 (fun _ => 0)
            ((1 : ℤ)).toNat : ℚ)) ((1 : ℤ) : ℚ) :=
  negative_buffer_not_rejected (fun _ _ u => u) (fun _ _ u => u)
    5 45 10 2 9 10 1 (fun _ => 0) (by norm_num)

/-- Claim C7: holding the distribution parameters, the trial count and the
random draws fixed, the estimate never decreases when timeBudget is
decreased (b' ≤ b) or walkTime is increased (w ≤ w'). -/
theorem risk_monotone_budget_walk (ns gs : ℚ → ℚ → ℚ → ℚ)
    (b b' ta ts sh sc w w' : ℚ) (it : ℤ) (e : ℕ → ℚ)
    (hit : 1 ≤ it) (hb : b' ≤ b) (hw : w ≤ w') :
    ∃ q q' : ℚ,
      calculate_risk ns gs b ta ts sh sc w it e = DVal.fin q ∧
        calculate_risk ns gs b' ta ts sh sc w' it e = DVal.fin q' ∧
        q ≤ q' := by
  refine ⟨_, _, calculate_risk_eq_fin ns gs b ta ts sh sc w it e hit,
    calculate_risk_eq_fin ns gs b' ta ts sh sc w' it e hit, ?_⟩
  have hbuf : effectiveBuffer b' w' ≤ effectiveBuffer b w := by
    unfold effectiveBuffer
    linarith
  have hm := missedFlights_anti_buffer ns gs (effectiveBuffer b w)
    (effectiveBuffer b' w') ta ts sh sc e hbuf it.toNat
  have hpos : (0 : ℚ) < (it : ℚ) := by
    exact_mod_cast show (0 : ℤ) < it by omega
  exact (div_le_div_iff_of_pos_right hpos).mpr (by exact_mod_cast hm)

/-- Witness for C7: with one trial and fixed zero draws, cutting the budget
from 90 to 50 and raising the walk from 10 to 20 yields estimates q ≤ q'. -/
theorem risk_monotone_budget_walk_witness :
    ∃ q q' : ℚ,
      calculate_risk (fun _ _ u => u) (fun _ _ u => u) 90 45 10 2 9 10 1
          (fun _ => 0) = DVal.fin q ∧
        calculate_risk (fun _ _ u => u) (fun _ _ u => u) 50 45 10 2 9 20 1
            (fun _ => 0) = DVal.fin q' ∧
        q ≤ q' :=
  risk_monotone_budget_walk (fun _ _ u => u) (fun _ _ u => u)
    90 50 45 10 2 9 10 20 1 (fun _ => 0) (by norm_num) (by norm_num)
    (by norm_num)

/-- Claim C8: for every count ≥ 0 and any parameters, `simulate_gamma`
returns a sequence whose length equals the count, and count = 0 yields the
empty sequence rather than an error. -/
theorem simulate_gamma_length_eq_count (gs : ℚ → ℚ → ℚ → ℚ)
    (sh sc : ℚ) (it : ℤ) (e : ℕ → ℚ) (h : 0 ≤ it) :
    ((simulate_gamma gs sh sc it e).length : ℤ) = it ∧
      (it = 0 → simulate_gamma gs sh sc it e = []) := by
  constructor
  · unfold simulate_gamma
    rw [List.length_map, List.length_range, Int.toNat_of_nonneg h]
  · intro h0
    subst h0
    rfl

/-- Witness for C8: count 3 yields a length-3 array and count 0 yields the
empty array. -/
theorem simulate_gamma_length_eq_count_witness :
    ((simulate_gamma (fun _ _ u => u) 2 1 3 (fun _ => 0)).length : ℤ) = 3 ∧
      simulate_gamma (fun _ _ u => u) 2 1 0 (fun _ => 0) = [] :=
  ⟨(simulate_gamma_length_eq_count (fun _ _ u => u) 2 1 3 (fun _ => 0)
      (by norm_num)).1,
    (simulate_gamma_length_eq_count (fun _ _ u => u) 2 1 0 (fun _ => 0)
      (by norm_num)).2 rfl⟩

/-- Claim C9: with iterations = 0 the trial loop executes zero trials
(`missed_flights` stays 0), no sample is drawn, no exception is raised, and
the function performs the unguarded division 0 / 0, returning NaN — for
every choice of samplers, parameters and entropy stream. -/
theorem calculate_risk_zero_iterations_nan (ns gs : ℚ → ℚ → ℚ → ℚ)
    (b ta ts sh sc w : ℚ) (e : ℕ → ℚ) :
    missedFlights ns gs (effectiveBuffer b w) ta ts sh sc e
        ((0 : ℤ)).toNat = 0 ∧
      calculate_risk ns gs b ta ts sh sc w 0 e = divDouble 0 0 ∧
      divDouble 0 0 = DVal.nan := by
  refine ⟨rfl, ?_, by norm_num [divDouble]⟩
  show divDouble ((0 : ℕ) : ℚ) ((0 : ℤ) : ℚ) = divDouble 0 0
  norm_num

/-- Claim C10: all randomness enters only through the engine: the two
functions are deterministic given the entropy stream, and two calls with
identical arguments whose streams agree on every raw value they actually
consume (the first `count` values for `simulate_gamma`, the first
`2 * trialCount` values for `calculate_risk`) return identical results. -/
theorem deterministic_given_entropy (ns gs : ℚ → ℚ → ℚ → ℚ)
    (b ta ts sh sc w : ℚ) (it : ℤ) (e1 e2 : ℕ → ℚ) :
    ((∀ i < it.toNat, e1 i = e2 i) →
        simulate_gamma gs sh sc it e1 = simulate_gamma gs sh sc it e2) ∧
      ((∀ i < 2 * it.toNat, e1 i = e2 i) →
        calculate_risk ns gs b ta ts sh sc w it e1 =
          calculate_risk ns gs b ta ts sh sc w it e2) := by
  constructor
  · intro h
    unfold simulate_gamma
    exact List.map_congr_left
      (fun i hi => by rw [h i (List.mem_range.mp hi)])
  · intro h
    unfold calculate_risk
    rw [missedFlights_congr_entropy ns gs (effectiveBuffer b w) ta ts sh sc
        e1 e2 it.toNat h]

/-- Witness for C10: two streams that agree on the consumed draws (indices
below 2 for one trial, resp. below 1 for a one-element array) but differ
beyond them give identical results. -/
theorem deterministic_given_entropy_witness :
    simulate_gamma (fun _ _ u => u) 2 9 1 (fun _ => 0)
        = simulate_gamma (fun _ _ u => u) 2 9 1
            (fun i => if i < 2 then 0 else 7) ∧
      calculate_risk (fun _ _ u => u) (fun _ _ u => u) 90 45 10 2 9 10 1
          (fun _ => 0)
        = calculate_risk (fun _ _ u => u) (fun _ _ u => u) 90 45 10 2 9 10 1
            (fun i => if i < 2 then 0 else 7) :=
  ⟨(deterministic_given_entropy (fun _ _ u => u) (fun _ _ u => u)
      90 45 10 2 9 10 1 (fun _ => 0) (fun i => if i < 2 then 0 else 7)).1
      (by
        intro i hi
        have h2 : i < 2 := by
          have h1 : i < ((1 : ℤ)).toNat := hi
          omega
        simp [h2]),
    (deterministic_given_entropy (fun _ _ u => u) (fun _ _ u => u)
      90 45 10 2 9 10 1 (fun _ => 0) (fun i => if i < 2 then 0 else 7)).2
      (by
        intro i hi
        have h2 : i < 2 := by
          have h1 : i < 2 * ((1 : ℤ)).toNat := hi
          omega
        simp [h2])⟩
